import Mathlib

/-!
Verification development for the TLSF ("SpeedAllocator") memory allocator.

The allocator's state and operations are shallowly embedded from the Rust
source (`src/lib.rs`, `src/block.rs`):

* Machine integers (`usize`, `u32`) are modelled as `Nat` with explicit
  masking where the source's fixed width matters.  Rust release-mode
  semantics is used for shift overflow (the shift amount is taken mod the
  bit width) and the result of a `u32` operation is truncated to 32 bits.
* Raw pointers (`*mut Block`, `NonNull<Block>`) are modelled as indices
  (`BlockId`) into an explicit heap `blocks : List (Option Block)`;
  `System.alloc` appends a fresh record, `System.dealloc` clears a slot.
* Fallible operations run in `Except Fault`; a Rust panic (out-of-bounds
  index, `unwrap` on `None`, dereference of a freed record) is modelled as
  `Except.error`, distinct from an `Ok`/`Some`/`None` return.
-/

/-- Failure modes of the embedded operations.  `err` models a value-level
`Result::Err` (which callers can observe and convert, as `.ok()?` does in the
source); `panic` models a Rust panic (index out of bounds, `unwrap` on
`None`, use of an invalid pointer), which propagates past every caller. -/
inductive Fault where
  | err (msg : String)
  | panic (msg : String)
deriving DecidableEq, Repr

/-- The id of a `Block` record in the modelled heap (stands for a
`NonNull<Block>` pointer in the source). -/
abbrev BlockId := Nat

/-- `struct Block` from `src/block.rs`.  The `Option BlockId` fields model the
source's `Option<NonNull<Block>>` link fields. -/
structure Block where
  size : Nat
  offset : Nat
  next_free : Option BlockId
  prev_free : Option BlockId
  next_physical : Option BlockId
  prev_physical : Option BlockId
deriving DecidableEq, Repr

/-- `struct BlockMap` from `src/block.rs`. -/
structure BlockMap where
  bin_idx : Nat
  sub_bin_idx : Nat
  rounded_size : Nat
  idx : Nat
deriving DecidableEq, Repr

/-- `Block::is_free` from `src/block.rs`: the source tests only
`self.prev_free.is_none()`. -/
def Block.is_free (b : Block) : Bool :=
  b.prev_free.isNone

/-- `Block::mark_used` from `src/block.rs`: points both free links at the
block itself (`self_id`) and adds `adjustment` to the offset. -/
def Block.mark_used (b : Block) (self_id : BlockId) (adjustment : Nat) : Block :=
  { b with prev_free := some self_id, next_free := some self_id,
           offset := b.offset + adjustment }

/-- `Block::mark_free` from `src/block.rs`. -/
def Block.mark_free (b : Block) : Block :=
  { b with prev_free := none, next_free := none }

/-- One step of the bit-length loop: `size_loop fuel x` is the number of
binary digits of `x`, provided `x < 2 ^ fuel`. -/
def size_loop : Nat → Nat → Nat
  | 0, _ => 0
  | fuel + 1, x => if x = 0 then 0 else size_loop fuel (x / 2) + 1

/-- Number of binary digits of a `usize` value (64-bit). -/
def bit_length (x : Nat) : Nat :=
  size_loop 64 x

/-- `usize::leading_zeros` for a 64-bit value. -/
def leading_zeros (mask : Nat) : Nat :=
  64 - bit_length mask

/-- `fn bit_scan_msb` from `src/lib.rs`: `63 - mask.leading_zeros()`. -/
def bit_scan_msb (mask : Nat) : Nat :=
  63 - leading_zeros mask

/-- Bitwise complement of a `usize` value: `!x` on a 64-bit machine. -/
def u64_not (x : Nat) : Nat :=
  (2 ^ 64 - 1) - x

/-- `!0u32`, the all-ones 32-bit word. -/
def U32_MAX : Nat := 2 ^ 32 - 1

/-- `u32` left shift.  Rust release semantics: overflow of the shift amount
wraps it modulo the bit width; the result is truncated to 32 bits. -/
def u32_shl (x n : Nat) : Nat :=
  (x <<< (n % 32)) &&& U32_MAX

/-- Bitwise complement of a `u32` value. -/
def u32_not (x : Nat) : Nat :=
  U32_MAX - x

/-- Fuelled trailing-zero count; at fuel 0 the remaining value is zero. -/
def tzAux : Nat → Nat → Nat
  | 0, _ => 0
  | fuel + 1, x => if x % 2 = 1 then 0 else tzAux fuel (x / 2) + 1

/-- `u32::trailing_zeros` (32 for the zero word). -/
def u32_trailing_zeros (x : Nat) : Nat :=
  tzAux 32 x

/-- `fn align_forward` from `src/lib.rs`:
`(offset + alignment - 1) & !(alignment - 1)`. -/
def align_forward (offset alignment : Nat) : Nat :=
  (offset + alignment - 1) &&& u64_not (alignment - 1)

/-- `fn is_pow_two` from `src/lib.rs`: `(num & (num - 1)) == 0 && num > 0`.
(At `num = 0` the Rust release build wraps `num - 1` to `usize::MAX`; the
truncated `Nat` subtraction yields the same `false` overall.) -/
def is_pow_two (num : Nat) : Bool :=
  (num &&& (num - 1)) == 0 && decide (num > 0)

/-- `struct SpeedAllocator` from `src/lib.rs`, together with the heap of
`Block` records the source keeps behind raw pointers. -/
structure SpeedAllocator where
  bins : List (Option BlockId)
  bin_bitmap : Nat
  sub_bin_bitmap : List Nat
  num_allocation : Nat
  num_free_block : Nat
  blocks : List (Option Block)
deriving DecidableEq, Repr

namespace SpeedAllocator

def LINEAR : Nat := 7

def SUB_BIN : Nat := 5

def BIN_COUNT : Nat := 64 - LINEAR

def SUB_BIN_COUNT : Nat := 1 <<< SUB_BIN

def MIN_ALLOC_SIZE : Nat := 1 <<< LINEAR

def BLOCK_COUNT : Nat := (BIN_COUNT - 1) * SUB_BIN_COUNT + 1

/-- Dereference a block pointer; a dangling or freed pointer is a fault. -/
def getBlock (s : SpeedAllocator) (id : BlockId) : Except Fault Block :=
  match s.blocks.getD id none with
  | some b => .ok b
  | none => .error (.panic "invalid block pointer")

/-- Write through a block pointer. -/
def setBlock (s : SpeedAllocator) (id : BlockId) (b : Block) : SpeedAllocator :=
  { s with blocks := s.blocks.set id (some b) }

/-- Indexing `self.sub_bin_bitmap[i]`; out of bounds is a panic. -/
def getU32 (l : List Nat) (i : Nat) : Except Fault Nat :=
  if h : i < l.length then .ok l[i] else .error (.panic "index out of bounds")

/-- Indexing `self.bins[i]`; out of bounds is a panic. -/
def getBin (s : SpeedAllocator) (i : Nat) : Except Fault (Option BlockId) :=
  if h : i < s.bins.length then .ok s.bins[i]
  else .error (.panic "index out of bounds")

/-- `SpeedAllocator::new` from `src/lib.rs`: empty bins, zero bitmaps, zero
counters (and, in the model, an empty heap of block records). -/
def new : SpeedAllocator :=
  { bins := List.replicate BLOCK_COUNT none
    bin_bitmap := 0
    sub_bin_bitmap := List.replicate BIN_COUNT 0
    num_allocation := 0
    num_free_block := 0
    blocks := [] }

/-- `SpeedAllocator::binmap_down` from `src/lib.rs` (reads nothing from
`self`, hence a pure function of `size`). -/
def binmap_down (size : Nat) : BlockMap :=
  let bin_idx := bit_scan_msb (size ||| MIN_ALLOC_SIZE)
  let log2_subbin_size := bin_idx - SUB_BIN
  let sub_bin_idx := size >>> log2_subbin_size
  { bin_idx := bin_idx - LINEAR + (sub_bin_idx >>> SUB_BIN)
    sub_bin_idx := sub_bin_idx &&& (SUB_BIN_COUNT - 1)
    rounded_size := size
    idx := (bin_idx - LINEAR + (sub_bin_idx >>> SUB_BIN)) * SUB_BIN_COUNT
      + (sub_bin_idx &&& (SUB_BIN_COUNT - 1)) }

/-- `SpeedAllocator::binmap_up` from `src/lib.rs`. -/
def binmap_up (size : Nat) : BlockMap :=
  let bin_idx := bit_scan_msb (size ||| MIN_ALLOC_SIZE)
  let log2_subbin_size := bin_idx - SUB_BIN
  let next_subbin_offset := (1 <<< log2_subbin_size) - 1
  let rounded := size + next_subbin_offset
  let sub_bin_idx := rounded >>> log2_subbin_size
  { bin_idx := bin_idx - LINEAR + (sub_bin_idx >>> SUB_BIN)
    sub_bin_idx := sub_bin_idx &&& (SUB_BIN_COUNT - 1)
    rounded_size := rounded &&& u64_not next_subbin_offset
    idx := (bin_idx - LINEAR + (sub_bin_idx >>> SUB_BIN)) * SUB_BIN_COUNT
      + (sub_bin_idx &&& (SUB_BIN_COUNT - 1)) }

/-- `SpeedAllocator::find_free_block` from `src/lib.rs`.  Takes `&mut self`
in the source but only reads the bitmaps, so it is modelled as a pure
function of the state. -/
def find_free_block (s : SpeedAllocator) (size : Nat) : Except Fault BlockMap :=
  let map := binmap_up size
  match getU32 s.sub_bin_bitmap map.bin_idx with
  | .error e => .error e
  | .ok word =>
    let masked := word &&& u32_shl U32_MAX map.sub_bin_idx
    if masked == 0 then
      let bin_word := s.bin_bitmap &&& u32_shl U32_MAX (map.bin_idx + 1)
      if bin_word == 0 then
        .error (.err "OutOfFreeBlock")
      else
        let bin_idx := u32_trailing_zeros bin_word
        match getU32 s.sub_bin_bitmap bin_idx with
        | .error e => .error e
        | .ok word2 =>
          let sub_bin_idx := u32_trailing_zeros word2
          .ok { bin_idx := bin_idx, sub_bin_idx := sub_bin_idx,
                rounded_size := map.rounded_size,
                idx := bin_idx * SUB_BIN_COUNT + sub_bin_idx }
    else
      let sub_bin_idx := u32_trailing_zeros masked
      .ok { bin_idx := map.bin_idx, sub_bin_idx := sub_bin_idx,
            rounded_size := map.rounded_size,
            idx := map.bin_idx * SUB_BIN_COUNT + sub_bin_idx }

/-- `SpeedAllocator::insert_free_block` from `src/lib.rs`: head-insert into
the class computed by `binmap_down(block.size)`, then set both bitmap bits
and bump `num_free_block`. -/
def insert_free_block (s : SpeedAllocator) (id : BlockId) : Except Fault SpeedAllocator := do
  let b ← s.getBlock id
  let map := binmap_down b.size
  let idx := map.bin_idx * SUB_BIN_COUNT + map.sub_bin_idx
  let current ← s.getBin idx
  let s := s.setBlock id { b with prev_free := none, next_free := current }
  let s ← match current with
    | some curr => do
      let cb ← s.getBlock curr
      pure (s.setBlock curr { cb with prev_free := some id })
    | none => pure s
  let s := { s with bins := s.bins.set idx (some id) }
  let s := { s with bin_bitmap := s.bin_bitmap ||| u32_shl 1 map.bin_idx }
  let old ← getU32 s.sub_bin_bitmap map.bin_idx
  let s := { s with sub_bin_bitmap :=
    s.sub_bin_bitmap.set map.bin_idx (old ||| u32_shl 1 map.sub_bin_idx) }
  pure { s with num_free_block := s.num_free_block + 1 }

/-- `SpeedAllocator::remove_free_block` from `src/lib.rs`: splice the block
out of its doubly-linked list; clear the class's bitmap bits only when the
removed block is the list head with no successor.  (`num_free_block -= 1` on
a `Nat`; the source's `usize` would wrap at zero, a case no claim reaches.) -/
def remove_free_block (s : SpeedAllocator) (id : BlockId) (block_map : BlockMap) :
    Except Fault SpeedAllocator := do
  let b ← s.getBlock id
  let next := b.next_free
  let prev := b.prev_free
  let s ← match next with
    | some n => do
      let nb ← s.getBlock n
      pure (s.setBlock n { nb with prev_free := prev })
    | none => pure s
  let s ← match prev with
    | some p => do
      let pb ← s.getBlock p
      pure (s.setBlock p { pb with next_free := next })
    | none => pure s
  let head ← s.getBin block_map.idx
  let s ←
    if head == some id then do
      let s ←
        if next.isNone then do
          let old ← getU32 s.sub_bin_bitmap block_map.bin_idx
          let word := old &&& u32_not (u32_shl 1 block_map.sub_bin_idx)
          let s := { s with sub_bin_bitmap :=
            s.sub_bin_bitmap.set block_map.bin_idx word }
          if word == 0 then
            pure { s with bin_bitmap :=
              s.bin_bitmap &&& u32_not (u32_shl 1 block_map.bin_idx) }
          else
            pure s
        else
          pure s
      pure { s with bins := s.bins.set block_map.idx next }
    else
      pure s
  pure { s with num_free_block := s.num_free_block - 1 }

/-- `SpeedAllocator::use_free_block` from `src/lib.rs`.  Returns the optional
split-off tail block together with the updated state.  The source's
`System.alloc` of a fresh `Block` record is modelled by appending to the
heap (which never fails, so the source's null-pointer branch is dead); the
fields the source leaves uninitialised on the fresh record are defaulted to
`none`. -/
def use_free_block (s : SpeedAllocator) (id : BlockId) (size alignment : Nat) :
    Except Fault (Option BlockId × SpeedAllocator) := do
  let b ← s.getBlock id
  if !b.is_free then
    .error (.err "Block is not free")
  else
    let aligned_offset := align_forward b.offset alignment
    let adjustment := aligned_offset - b.offset
    let size_with_adjustment := size + adjustment
    if size_with_adjustment > b.size then
      .error (.err "Block size is insufficient")
    else do
      let (maybe_new_block, s) ←
        if b.size ≥ size_with_adjustment + MIN_ALLOC_SIZE then do
          let new_id := s.blocks.length
          let fresh : Block :=
            { size := b.size - size_with_adjustment
              offset := b.offset + size_with_adjustment
              next_free := none, prev_free := none
              next_physical := none, prev_physical := none }
          let s := { s with blocks := s.blocks ++ [some fresh] }
          let s ← match b.next_physical with
            | some np => do
              let npb ← s.getBlock np
              let s := s.setBlock np { npb with prev_physical := some new_id }
              let tb ← s.getBlock new_id
              pure (s.setBlock new_id { tb with next_physical := some np })
            | none => pure s
          let tb ← s.getBlock new_id
          let s := s.setBlock new_id { tb with prev_physical := some id }
          let bb ← s.getBlock id
          let s := s.setBlock id { bb with next_physical := some new_id }
          pure (some new_id, s)
        else
          pure (none, s)
      let b2 ← s.getBlock id
      let b3 := { b2 with offset := aligned_offset, size := size }
      let s := s.setBlock id (b3.mark_used id adjustment)
      pure (maybe_new_block, s)

/-- `SpeedAllocator::merge_free_block` from `src/lib.rs`: absorb a free
`prev_physical` neighbour (taking its offset), then a free `next_physical`
neighbour, releasing the absorbed records. -/
def merge_free_block (s : SpeedAllocator) (id : BlockId) : Except Fault SpeedAllocator := do
  let b ← s.getBlock id
  let s ← match b.prev_physical with
    | some pp => do
      let ppb ← s.getBlock pp
      if ppb.is_free then do
        let s ← s.remove_free_block pp (binmap_down ppb.size)
        let ppb2 ← s.getBlock pp
        let b1 ← s.getBlock id
        let s := s.setBlock id
          { b1 with offset := ppb2.offset, size := b1.size + ppb2.size,
                    prev_physical := ppb2.prev_physical }
        let b2 ← s.getBlock id
        let s ← match b2.prev_physical with
          | some pre_prev => do
            let pq ← s.getBlock pre_prev
            pure (s.setBlock pre_prev { pq with next_physical := some id })
          | none => pure s
        pure { s with blocks := s.blocks.set pp none }
      else
        pure s
    | none => pure s
  let b ← s.getBlock id
  let s ← match b.next_physical with
    | some np => do
      let npb ← s.getBlock np
      if npb.is_free then do
        let s ← s.remove_free_block np (binmap_down npb.size)
        let npb2 ← s.getBlock np
        let b1 ← s.getBlock id
        let s := s.setBlock id
          { b1 with size := b1.size + npb2.size,
                    next_physical := npb2.next_physical }
        let b2 ← s.getBlock id
        let s ← match b2.next_physical with
          | some next_next => do
            let nq ← s.getBlock next_next
            pure (s.setBlock next_next { nq with prev_physical := some id })
          | none => pure s
        pure { s with blocks := s.blocks.set np none }
      else
        pure s
    | none => pure s
  pure s

/-- `SpeedAllocator::allocate` from `src/lib.rs`.  The returned
`Option BlockId` models the `Option<NonNull<u8>>` result (the source returns
the block-record pointer itself); `.ok (none, s)` is a `None` return with
state `s`, while `.error` is a panic.  Note the source's validation combines
its two conditions with `&&`, and each `.ok()?` turns an internal error into
a `None` return, keeping whatever state mutations already happened. -/
def allocate (s : SpeedAllocator) (size alignment : Nat) :
    Except Fault (Option BlockId × SpeedAllocator) :=
  if !is_pow_two alignment && decide (size < MIN_ALLOC_SIZE) then
    .ok (none, s)
  else
    match s.find_free_block size with
    | .error (.panic e) => .error (.panic e)
    | .error (.err _) => .ok (none, s)
    | .ok block_map =>
      match s.getBin block_map.idx with
      | .error e => .error e
      | .ok none => .error (.panic "unwrap on None")
      | .ok (some block) =>
        match s.remove_free_block block block_map with
        | .error e => .error e
        | .ok s1 =>
          match s1.use_free_block block size alignment with
          | .error (.panic e) => .error (.panic e)
          | .error (.err _) => .ok (none, s1)
          | .ok (maybe_split, s2) =>
            match (match maybe_split with
                   | some split_block => s2.insert_free_block split_block
                   | none => .ok s2) with
            | .error e => .error e
            | .ok s3 => .ok (some block, { s3 with num_allocation := s3.num_allocation + 1 })

/-- `SpeedAllocator::deallocate` from `src/lib.rs`: mark the block free,
merge with physical neighbours, insert into the free index, and decrement
`num_allocation` (a `Nat` here; the source's `usize` would wrap at zero). -/
def deallocate (s : SpeedAllocator) (id : BlockId) : Except Fault SpeedAllocator := do
  let b ← s.getBlock id
  let s := s.setBlock id b.mark_free
  let s ← s.merge_free_block id
  let s ← s.insert_free_block id
  pure { s with num_allocation := s.num_allocation - 1 }

/-- The `GlobalAlloc::alloc` impl from `src/lib.rs`: builds a brand-new
`SpeedAllocator` for the single call and allocates from it.  `.ok none`
models returning `null_mut()`, `.ok (some p)` a non-null pointer, `.error`
a panic inside the call. -/
def adapter_alloc (size alignment : Nat) : Except Fault (Option BlockId) :=
  match new.allocate size alignment with
  | .error e => .error e
  | .ok (some p, _) => .ok (some p)
  | .ok (none, _) => .ok none

end SpeedAllocator

deriving instance DecidableEq for Except

/-! ### Concrete states used to exercise the operations -/

/-- A block record that is free (both free links `None`) and physically
unlinked, as the bootstrap block of a fresh pool would be. -/
def freeBlock (sz off : Nat) : Block :=
  { size := sz, offset := off, next_free := none, prev_free := none,
    next_physical := none, prev_physical := none }

open SpeedAllocator in
/-- Allocator state holding one free whole-pool block of size 4096 at offset
0, filed (per `binmap_down 4096`) in class `(6, 0)`, flat index 192. -/
def poolState4096 : SpeedAllocator :=
  { bins := (List.replicate BLOCK_COUNT (none : Option BlockId)).set 192 (some 0)
    bin_bitmap := 64
    sub_bin_bitmap := (List.replicate BIN_COUNT 0).set 6 1
    num_allocation := 0
    num_free_block := 1
    blocks := [some (freeBlock 4096 0)] }

/-- The result of requesting 64 bytes at alignment 8 from `poolState4096`:
`64 < MIN_ALLOC_SIZE`, so per the claim this must be rejected with no state
change. -/
def undersizedResult := poolState4096.allocate 64 8

open SpeedAllocator in
/-- Two size-128 free block records, not yet in any free list. -/
def twoBlocksState : SpeedAllocator :=
  { bins := List.replicate BLOCK_COUNT (none : Option BlockId)
    bin_bitmap := 0
    sub_bin_bitmap := List.replicate BIN_COUNT 0
    num_allocation := 0
    num_free_block := 0
    blocks := [some (freeBlock 128 0), some (freeBlock 128 256)] }

/-- Insert block 0 and then block 1 of `twoBlocksState` into the (shared)
size-128 class, so block 1 becomes the head and block 0 the non-head
member. -/
def twoInsertsResult :=
  (twoBlocksState.insert_free_block 0).bind (fun s => s.insert_free_block 1)

open SpeedAllocator in
/-- State with one free block of size `34 * 2^32` (class `(31, 2)`, flat
994): `bin_bitmap` bit 31 and `sub_bin_bitmap[31]` bit 2 are set. -/
def hugeClassState : SpeedAllocator :=
  { bins := (List.replicate BLOCK_COUNT (none : Option BlockId)).set 994 (some 0)
    bin_bitmap := 2 ^ 31
    sub_bin_bitmap := (List.replicate BIN_COUNT 0).set 31 4
    num_allocation := 0
    num_free_block := 1
    blocks := [some (freeBlock (34 * 2 ^ 32) 0)] }

/-- The bitmap search for a request of size `37 * 2^32` (class `(31, 5)`,
flat 997) against `hugeClassState`, where only the smaller class 994 is
populated. -/
def hugeFindResult := hugeClassState.find_free_block (37 * 2 ^ 32)

open SpeedAllocator in
/-- A single free block of size 3968 at (unaligned) offset 128. -/
def unalignedBlockState : SpeedAllocator :=
  { bins := List.replicate BLOCK_COUNT (none : Option BlockId)
    bin_bitmap := 0
    sub_bin_bitmap := List.replicate BIN_COUNT 0
    num_allocation := 0
    num_free_block := 0
    blocks := [some (freeBlock 3968 128)] }

/-- Using the size-3968 block at offset 128 for a request of 200 bytes at
alignment 256: `aligned_offset = 256`, `adjustment = 128`,
`required = 328`, and the block splits. -/
def splitResult := unalignedBlockState.use_free_block 0 200 256

open SpeedAllocator in
/-- Pool `[0, 4096)` split as A(0,128, free) · B(128,128, used) ·
C(256,128, free) · D(384,3712, used).  A and C share the size-128 class
(flat 32); C was head-inserted after A, so `bins[32] = C`,
`C.next_free = A`, `A.prev_free = C`.  The used blocks carry the
self-referential links `mark_used` writes.  All the spec's structural
invariants hold here: the physical chain partitions the pool, no two
adjacent blocks are both free, the bitmaps match the bins, and both free
blocks sit in the class `binmap_down` assigns their size. -/
def chainState : SpeedAllocator :=
  { bins := (List.replicate BLOCK_COUNT (none : Option BlockId)).set 32 (some 2)
    bin_bitmap := 2
    sub_bin_bitmap := (List.replicate BIN_COUNT 0).set 1 1
    num_allocation := 2
    num_free_block := 2
    blocks :=
      [ some { size := 128, offset := 0, next_free := none, prev_free := some 2,
               next_physical := some 1, prev_physical := none },
        some { size := 128, offset := 128, next_free := some 1, prev_free := some 1,
               next_physical := some 2, prev_physical := some 0 },
        some { size := 128, offset := 256, next_free := some 0, prev_free := none,
               next_physical := some 3, prev_physical := some 1 },
        some { size := 3712, offset := 384, next_free := some 3, prev_free := some 3,
               next_physical := none, prev_physical := some 2 } ] }

/-- Deallocating the used middle block B (id 1) of `chainState`. -/
def deallocResult := chainState.deallocate 1

open SpeedAllocator in
/-- One free block of size 128 at offset 128 (class flat 32), so an
allocation with alignment 256 needs an adjustment of 128 that cannot fit. -/
def tightBlockState : SpeedAllocator :=
  { bins := (List.replicate BLOCK_COUNT (none : Option BlockId)).set 32 (some 0)
    bin_bitmap := 2
    sub_bin_bitmap := (List.replicate BIN_COUNT 0).set 1 1
    num_allocation := 0
    num_free_block := 1
    blocks := [some (freeBlock 128 128)] }

/-- Requesting (128, 256) from `tightBlockState`: the selected block's
post-alignment usable size is insufficient (`128 + 128 > 128`). -/
def insufficientResult := tightBlockState.allocate 128 256

open SpeedAllocator in
/-- A free block record of size `2^38`, whose class is bin 32, sub-bin 0,
flat index 1024, not yet inserted. -/
def hugeBlockState : SpeedAllocator :=
  { bins := List.replicate BLOCK_COUNT (none : Option BlockId)
    bin_bitmap := 0
    sub_bin_bitmap := List.replicate BIN_COUNT 0
    num_allocation := 0
    num_free_block := 0
    blocks := [some (freeBlock (2 ^ 38) 0)] }

/-- Inserting the size-`2^38` block: its class's bin index 32 does not fit
in the `u32` `bin_bitmap`. -/
def hugeInsertResult := hugeBlockState.insert_free_block 0

/-! ### Arithmetic facts about the embedded bit-twiddling helpers -/

theorem size_loop_zero (fuel : Nat) : size_loop fuel 0 = 0 := by
  cases fuel <;> simp [size_loop]

theorem size_loop_spec (fuel : Nat) : ∀ x, x < 2 ^ fuel → 1 ≤ x →
    1 ≤ size_loop fuel x ∧ 2 ^ (size_loop fuel x - 1) ≤ x ∧ x < 2 ^ size_loop fuel x := by
  induction fuel with
  | zero =>
    intro x hx h1
    omega
  | succ fuel ih =>
    intro x hx h1
    have hx0 : ¬ x = 0 := by omega
    simp only [size_loop, if_neg hx0]
    rcases Nat.lt_or_ge x 2 with h2 | h2
    · have hx1 : x = 1 := by omega
      subst hx1
      simp [size_loop_zero]
    · have hdiv1 : 1 ≤ x / 2 := by omega
      have hdivlt : x / 2 < 2 ^ fuel := by
        have h2f : 2 ^ (fuel + 1) = 2 ^ fuel * 2 := by rw [Nat.pow_succ]
        omega
      obtain ⟨hk1, hk2, hk3⟩ := ih (x / 2) hdivlt hdiv1
      set k := size_loop fuel (x / 2) with hk
      have hp1 : 2 ^ k = 2 * 2 ^ (k - 1) := by
        conv_lhs => rw [show k = (k - 1) + 1 by omega]
        rw [Nat.pow_succ]
        ring
      have hp2 : 2 ^ (k + 1) = 2 * 2 ^ k := by rw [Nat.pow_succ]; ring
      refine ⟨by omega, ?_, ?_⟩
      · simp only [Nat.add_sub_cancel]
        omega
      · omega

/-- For a 64-bit value, `bit_scan_msb` is the exponent of the leading binary
digit: `2 ^ bit_scan_msb mask ≤ mask < 2 ^ (bit_scan_msb mask + 1)`. -/
theorem bit_scan_msb_char (mask : Nat) (h1 : 1 ≤ mask) (h2 : mask < 2 ^ 64) :
    2 ^ bit_scan_msb mask ≤ mask ∧ mask < 2 ^ (bit_scan_msb mask + 1) := by
  obtain ⟨ha, hb, hc⟩ := size_loop_spec 64 mask h2 h1
  unfold bit_scan_msb leading_zeros bit_length
  set L := size_loop 64 mask with hL
  have hL64 : L ≤ 64 := by
    by_contra hcon
    have : (2 : Nat) ^ 64 ≤ 2 ^ (L - 1) := Nat.pow_le_pow_right (by norm_num) (by omega)
    omega
  have he1 : 63 - (64 - L) = L - 1 := by omega
  rw [he1, show L - 1 + 1 = L by omega]
  exact ⟨hb, hc⟩

theorem msb_unique {a b x : Nat} (ha1 : 2 ^ a ≤ x) (ha2 : x < 2 ^ (a + 1))
    (hb1 : 2 ^ b ≤ x) (hb2 : x < 2 ^ (b + 1)) : a = b := by
  rcases Nat.lt_trichotomy a b with h | h | h
  · have : (2 : Nat) ^ (a + 1) ≤ 2 ^ b := Nat.pow_le_pow_right (by norm_num) (by omega)
    omega
  · exact h
  · have : (2 : Nat) ^ (b + 1) ≤ 2 ^ a := Nat.pow_le_pow_right (by norm_num) (by omega)
    omega

theorem lor_128_eq (s : Nat) : s ||| 128 = 2 ^ 8 * (s / 2 ^ 8) + (s % 2 ^ 8 ||| 128) := by
  have hmod : s % 2 ^ 8 < 2 ^ 8 := Nat.mod_lt _ (by norm_num)
  have hor : s % 2 ^ 8 ||| 128 < 2 ^ 8 := Nat.or_lt_two_pow hmod (by norm_num)
  conv_lhs => rw [← Nat.div_add_mod s (2 ^ 8), Nat.mul_add_lt_is_or hmod, Nat.or_assoc]
  rw [← Nat.mul_add_lt_is_or hor]

set_option maxRecDepth 4096 in
theorem le_lor_128 (s : Nat) : s ≤ s ||| 128 := by
  have h : ∀ r, r < 256 → r ≤ r ||| 128 := by decide
  have hmod : s % 2 ^ 8 < 256 := Nat.mod_lt _ (by norm_num)
  have h2 := h (s % 2 ^ 8) hmod
  have h3 := Nat.div_add_mod s (2 ^ 8)
  rw [lor_128_eq]
  omega

set_option maxRecDepth 4096 in
theorem lor_128_ge (s : Nat) : 128 ≤ s ||| 128 := by
  have h : ∀ r, r < 256 → 128 ≤ r ||| 128 := by decide
  have hmod : s % 2 ^ 8 < 256 := Nat.mod_lt _ (by norm_num)
  have h2 := h (s % 2 ^ 8) hmod
  rw [lor_128_eq]
  omega

/-- `or`-ing in the constant 128 does not move the leading digit of a value
that already has `2^e ≤ x < 2^(e+1)` with `e ≥ 7`. -/
theorem bit_scan_msb_lor_of_bounds (x e : Nat) (he7 : 7 ≤ e) (he : e ≤ 63)
    (hx1 : 2 ^ e ≤ x) (hx2 : x < 2 ^ (e + 1)) : bit_scan_msb (x ||| 128) = e := by
  have h128 : (128 : Nat) < 2 ^ (e + 1) := by
    calc (128 : Nat) < 2 ^ 8 := by norm_num
    _ ≤ 2 ^ (e + 1) := Nat.pow_le_pow_right (by norm_num) (by omega)
  have hor2 : x ||| 128 < 2 ^ (e + 1) := Nat.or_lt_two_pow hx2 h128
  have hor1 : 2 ^ e ≤ x ||| 128 := le_trans hx1 (le_lor_128 x)
  have h64 : x ||| 128 < 2 ^ 64 :=
    lt_of_lt_of_le hor2 (Nat.pow_le_pow_right (by norm_num) (by omega))
  have hpos : 1 ≤ x ||| 128 := by
    have := lor_128_ge x
    omega
  obtain ⟨hc1, hc2⟩ := bit_scan_msb_char (x ||| 128) hpos h64
  exact msb_unique hc1 hc2 hor1 hor2

theorem exists_msb (x : Nat) (h1 : 1 ≤ x) (h64 : x < 2 ^ 64) :
    ∃ e, 2 ^ e ≤ x ∧ x < 2 ^ (e + 1) :=
  ⟨bit_scan_msb x, bit_scan_msb_char x h1 h64⟩

/-- Masking a 64-bit value with the complement of the low `t` ones clears
exactly the low `t` bits. -/
theorem and_u64_not_ones (x t : Nat) (hx : x < 2 ^ 64) (ht : t ≤ 64) :
    x &&& u64_not (2 ^ t - 1) = x / 2 ^ t * 2 ^ t := by
  have hM : u64_not (2 ^ t - 1) = (2 ^ (64 - t) - 1) * 2 ^ t := by
    unfold u64_not
    have h2 : (2 : Nat) ^ (64 - t) * 2 ^ t = 2 ^ 64 := by
      rw [← Nat.pow_add]
      congr 1
      omega
    have h3 : ((2 : Nat) ^ (64 - t) - 1) * 2 ^ t = 2 ^ (64 - t) * 2 ^ t - 2 ^ t := by
      rw [Nat.sub_mul, Nat.one_mul]
    have h4 : (1 : Nat) ≤ 2 ^ t := Nat.one_le_two_pow
    have h5 : (2 : Nat) ^ t ≤ 2 ^ 64 := Nat.pow_le_pow_right (by norm_num) ht
    omega
  rw [hM]
  apply Nat.eq_of_testBit_eq
  intro i
  rw [Nat.testBit_and]
  rw [show ((2 : Nat) ^ (64 - t) - 1) * 2 ^ t = (2 ^ (64 - t) - 1) <<< t from
    (Nat.shiftLeft_eq _ _).symm]
  rw [show x / 2 ^ t * 2 ^ t = (x >>> t) <<< t by
    rw [Nat.shiftLeft_eq, Nat.shiftRight_eq_div_pow]]
  rw [Nat.testBit_shiftLeft, Nat.testBit_shiftLeft, Nat.testBit_shiftRight,
    Nat.testBit_two_pow_sub_one]
  rcases Nat.lt_or_ge i t with hit | hit
  · have h1 : ¬ i ≥ t := by omega
    simp [h1]
  · have h1 : i ≥ t := hit
    simp only [h1, decide_True, Bool.true_and]
    rw [show t + (i - t) = i by omega]
    rcases Nat.lt_or_ge i 64 with hi64 | hi64
    · have h2 : i - t < 64 - t := by omega
      simp [h2]
    · have hbit : x.testBit i = false :=
        Nat.testBit_lt_two_pow
          (lt_of_lt_of_le hx (Nat.pow_le_pow_right (by norm_num) hi64))
      have h2 : ¬ i - t < 64 - t := by omega
      simp [hbit, h2]

/-- Rounding up to a multiple of `d` does not decrease a value. -/
theorem le_ceil_mul (s d : Nat) (hd : 0 < d) : s ≤ (s + (d - 1)) / d * d := by
  have h := Nat.div_add_mod (s + (d - 1)) d
  have hm := Nat.mod_lt (s + (d - 1)) hd
  rw [Nat.mul_comm] at h
  set X := (s + (d - 1)) / d * d with hX
  omega

theorem ceil_div_le (s t c : Nat) (hs : s < 2 ^ (t + c)) :
    (s + (2 ^ t - 1)) / 2 ^ t ≤ 2 ^ c := by
  have hpos : (0 : Nat) < 2 ^ t := Nat.pos_pow_of_pos _ (by norm_num)
  have hlt : s + (2 ^ t - 1) < (2 ^ c + 1) * 2 ^ t := by
    have h1 : (2 ^ c + 1) * 2 ^ t = 2 ^ c * 2 ^ t + 2 ^ t := by ring
    have h2 : (2 : Nat) ^ (t + c) = 2 ^ c * 2 ^ t := by
      rw [← Nat.pow_add]
      congr 1
      omega
    omega
  have := (Nat.div_lt_iff_lt_mul hpos).mpr hlt
  omega

theorem ceil_div_ge (s t c : Nat) (hs : 2 ^ (t + c) ≤ s) :
    2 ^ c ≤ (s + (2 ^ t - 1)) / 2 ^ t := by
  have hpos : (0 : Nat) < 2 ^ t := Nat.pos_pow_of_pos _ (by norm_num)
  apply (Nat.le_div_iff_mul_le hpos).mpr
  have h2 : (2 : Nat) ^ (t + c) = 2 ^ c * 2 ^ t := by
    rw [← Nat.pow_add]
    congr 1
    omega
  have h4 : (1 : Nat) ≤ 2 ^ t := Nat.one_le_two_pow
  omega

open SpeedAllocator in
/-- `binmap_down` written arithmetically: with `m` the leading-digit index
of `size ||| 128` and `t = m - 5`, the sub-bin number is `size / 2^t` and
the spill into the next bin is its overflow past 32. -/
theorem binmap_down_eq (s m : Nat) (hm : bit_scan_msb (s ||| 128) = m) :
    binmap_down s =
      { bin_idx := m - 7 + s / 2 ^ (m - 5) / 32
        sub_bin_idx := s / 2 ^ (m - 5) % 32
        rounded_size := s
        idx := (m - 7 + s / 2 ^ (m - 5) / 32) * 32 + s / 2 ^ (m - 5) % 32 } := by
  have hMIN : (MIN_ALLOC_SIZE : Nat) = 128 := rfl
  have hLIN : (LINEAR : Nat) = 7 := rfl
  have hSB : (SUB_BIN : Nat) = 5 := rfl
  have hSBC : (SUB_BIN_COUNT : Nat) = 32 := rfl
  simp only [binmap_down, hMIN, hLIN, hSB, hSBC, hm, Nat.shiftRight_eq_div_pow,
    show (32 : Nat) - 1 = 2 ^ 5 - 1 by norm_num, Nat.and_pow_two_sub_one_eq_mod,
    show (2 : Nat) ^ 5 = 32 by norm_num]

open SpeedAllocator in
/-- `binmap_up` written arithmetically: the rounded size is the request
rounded up to the next multiple of the sub-bin granule `2^t`. -/
theorem binmap_up_eq (s m : Nat) (hm : bit_scan_msb (s ||| 128) = m)
    (hs : s + (2 ^ (m - 5) - 1) < 2 ^ 64) (hm5 : m - 5 ≤ 64) :
    binmap_up s =
      { bin_idx := m - 7 + (s + (2 ^ (m - 5) - 1)) / 2 ^ (m - 5) / 32
        sub_bin_idx := (s + (2 ^ (m - 5) - 1)) / 2 ^ (m - 5) % 32
        rounded_size := (s + (2 ^ (m - 5) - 1)) / 2 ^ (m - 5) * 2 ^ (m - 5)
        idx := (m - 7 + (s + (2 ^ (m - 5) - 1)) / 2 ^ (m - 5) / 32) * 32
          + (s + (2 ^ (m - 5) - 1)) / 2 ^ (m - 5) % 32 } := by
  have hMIN : (MIN_ALLOC_SIZE : Nat) = 128 := rfl
  have hLIN : (LINEAR : Nat) = 7 := rfl
  have hSB : (SUB_BIN : Nat) = 5 := rfl
  have hSBC : (SUB_BIN_COUNT : Nat) = 32 := rfl
  simp only [binmap_up, hMIN, hLIN, hSB, hSBC, hm, Nat.one_shiftLeft,
    Nat.shiftRight_eq_div_pow,
    show (32 : Nat) - 1 = 2 ^ 5 - 1 by norm_num, Nat.and_pow_two_sub_one_eq_mod,
    show (2 : Nat) ^ 5 = 32 by norm_num,
    and_u64_not_ones (s + (2 ^ (m - 5) - 1)) (m - 5) hs hm5]

open SpeedAllocator in
/-- Any request of at most `2^63 - 2^57` bytes maps to a bin index within
the 32 low bins plus spill room, in particular at most 56. -/
theorem binmap_up_bin_le (size : Nat) (h : size ≤ 2 ^ 63 - 2 ^ 57) :
    (binmap_up size).bin_idx ≤ 56 := by
  have hx1 : 1 ≤ size ||| 128 := by
    have := lor_128_ge size
    omega
  have hx64 : size ||| 128 < 2 ^ 63 := by
    apply Nat.or_lt_two_pow
    · have : (2 : Nat) ^ 57 ≤ 2 ^ 63 := by norm_num
      omega
    · norm_num
  obtain ⟨hc1, hc2⟩ := bit_scan_msb_char (size ||| 128) hx1
    (lt_of_lt_of_le hx64 (by norm_num))
  set m := bit_scan_msb (size ||| 128) with hm
  have hm7 : 7 ≤ m := by
    have h128 := lor_128_ge size
    by_contra hcon
    have : (2 : Nat) ^ (m + 1) ≤ 2 ^ 7 := Nat.pow_le_pow_right (by norm_num) (by omega)
    have h7 : (2 : Nat) ^ 7 = 128 := by norm_num
    omega
  have hm62 : m ≤ 62 := by
    by_contra hcon
    have : (2 : Nat) ^ 63 ≤ 2 ^ m := Nat.pow_le_pow_right (by norm_num) (by omega)
    omega
  have hsize : size < 2 ^ (m + 1) := lt_of_le_of_lt (le_lor_128 size) hc2
  have hts : size + (2 ^ (m - 5) - 1) < 2 ^ 64 := by
    have ha : (2 : Nat) ^ (m - 5) ≤ 2 ^ 57 := Nat.pow_le_pow_right (by norm_num) (by omega)
    have hb : (2 : Nat) ^ 63 + 2 ^ 57 < 2 ^ 64 := by norm_num
    have hc : (2 : Nat) ^ 57 ≤ 2 ^ 63 := by norm_num
    omega
  rw [binmap_up_eq size m hm.symm hts (by omega)]
  rcases Nat.lt_or_ge m 62 with hlt | hge
  · have hq : (size + (2 ^ (m - 5) - 1)) / 2 ^ (m - 5) ≤ 2 ^ 6 := by
      apply ceil_div_le
      rw [show m - 5 + 6 = m + 1 by omega]
      exact hsize
    show m - 7 + (size + (2 ^ (m - 5) - 1)) / 2 ^ (m - 5) / 32 ≤ 56
    have h64 : (2 : Nat) ^ 6 = 64 := by norm_num
    omega
  · have hm62' : m = 62 := by omega
    have hpos : (0 : Nat) < 2 ^ (m - 5) := Nat.pos_pow_of_pos _ (by norm_num)
    have hq : (size + (2 ^ (m - 5) - 1)) / 2 ^ (m - 5) < 64 := by
      rw [Nat.div_lt_iff_lt_mul hpos]
      have h1 : (64 : Nat) * 2 ^ (m - 5) = 2 ^ 63 := by
        rw [hm62']
        norm_num
      have h2 : (2 : Nat) ^ (m - 5) = 2 ^ 57 := by rw [hm62']
      have h3 : (1 : Nat) ≤ 2 ^ 57 := Nat.one_le_two_pow
      have h4 : (2 : Nat) ^ 57 ≤ 2 ^ 63 := by norm_num
      omega
    show m - 7 + (size + (2 ^ (m - 5) - 1)) / 2 ^ (m - 5) / 32 ≤ 56
    omega

/-! ### Claim theorems -/

set_option maxRecDepth 10000 in
/-- Claim C1 (code bug): the constructor creates no bootstrap block at all.
`SpeedAllocator::new` takes no pool size and returns a state with zero free
blocks, all-empty bins, zero bitmaps and an empty record heap, so no class
has a free-list head and no bitmap bit is lit — contradicting the claimed
single whole-pool free block. -/
theorem claim_C1_new_has_no_free_block :
    SpeedAllocator.new.num_free_block = 0 ∧
    SpeedAllocator.new.bin_bitmap = 0 ∧
    SpeedAllocator.new.sub_bin_bitmap.all (fun w => w == 0) = true ∧
    SpeedAllocator.new.bins.all (fun o => o == none) = true ∧
    SpeedAllocator.new.blocks = [] := by
  refine ⟨rfl, rfl, by decide, by decide, rfl⟩

set_option maxRecDepth 10000 in
/-- Claim C2 (code bug): the validation is `!is_pow_two(alignment) &&
size < MIN_ALLOC_SIZE`, so a request violating only one side slips through.
Here `size = 64 < 128` with power-of-two alignment 8 is not rejected: the
allocator searches, splits the whole-pool block and hands out a 64-byte
block at offset 0, mutating the state (`num_allocation` becomes 1). -/
theorem claim_C2_undersized_request_admitted :
    is_pow_two 8 = true ∧
    64 < SpeedAllocator.MIN_ALLOC_SIZE ∧
    undersizedResult.map
      (fun r => (r.1, r.2.num_allocation,
        (r.2.blocks.getD 0 none).map (fun b => (b.size, b.offset)))) =
      .ok (some 0, 1, some (64, 0)) := by
  refine ⟨rfl, by decide, by decide⟩

set_option maxRecDepth 10000 in
/-- Claim C3 (code bug): `is_free` is `prev_free.is_none()`, so a free block
that is not the head of its list is classified as *not* free.  Inserting
block 0 and then block 1 into the same class leaves block 0 a member of the
list (`bins[32] = some 1`, `1.next_free = some 0`) with
`0.prev_free = some 1`, and `is_free` then reports `false` for block 0. -/
theorem claim_C3_nonhead_free_block_misclassified :
    twoInsertsResult.map
      (fun s => (s.bins.getD 32 none,
        (s.blocks.getD 1 none).map Block.next_free,
        (s.blocks.getD 0 none).map Block.prev_free,
        (s.blocks.getD 0 none).map Block.is_free)) =
      .ok (some 1, some (some 0), some (some 1), some false) := by
  decide

open SpeedAllocator in
/-- Claim C4 (confirmed): for every `s` in `[MIN_ALLOC_SIZE, 2^62]`,
`binmap_up s` rounds up (`s ≤ rounded_size`) and `binmap_down` files the
rounded size in exactly the class `binmap_up` computed — same bin, same
sub-bin, same flat index. -/
theorem claim_C4_binmap_roundtrip (s : Nat) (h1 : MIN_ALLOC_SIZE ≤ s)
    (h2 : s ≤ 2 ^ 62) :
    s ≤ (binmap_up s).rounded_size ∧
    (binmap_down (binmap_up s).rounded_size).bin_idx = (binmap_up s).bin_idx ∧
    (binmap_down (binmap_up s).rounded_size).sub_bin_idx = (binmap_up s).sub_bin_idx ∧
    (binmap_down (binmap_up s).rounded_size).idx = (binmap_up s).idx := by
  have h128 : 128 ≤ s := h1
  have hs1 : 1 ≤ s := by omega
  have hs64 : s < 2 ^ 64 := by
    have h : (2 : Nat) ^ 62 < 2 ^ 64 := by norm_num
    omega
  obtain ⟨e, he1, he2⟩ := exists_msb s hs1 hs64
  have he7 : 7 ≤ e := by
    by_contra hcon
    have h : (2 : Nat) ^ (e + 1) ≤ 2 ^ 7 := Nat.pow_le_pow_right (by norm_num) (by omega)
    have h7 : (2 : Nat) ^ 7 = 128 := by norm_num
    omega
  have he62 : e ≤ 62 := by
    by_contra hcon
    have h : (2 : Nat) ^ 63 ≤ 2 ^ e := Nat.pow_le_pow_right (by norm_num) (by omega)
    have h63 : (2 : Nat) ^ 62 < 2 ^ 63 := by norm_num
    omega
  have hm : bit_scan_msb (s ||| 128) = e :=
    bit_scan_msb_lor_of_bounds s e he7 (by omega) he1 he2
  have htpos : (0 : Nat) < 2 ^ (e - 5) := Nat.pos_pow_of_pos _ (by norm_num)
  have hts : s + (2 ^ (e - 5) - 1) < 2 ^ 64 := by
    have ha : (2 : Nat) ^ (e - 5) ≤ 2 ^ 57 := Nat.pow_le_pow_right (by norm_num) (by omega)
    have hb : (2 : Nat) ^ 62 + 2 ^ 57 < 2 ^ 64 := by norm_num
    omega
  have hup := binmap_up_eq s e hm hts (by omega)
  have hq32 : 2 ^ 5 ≤ (s + (2 ^ (e - 5) - 1)) / 2 ^ (e - 5) := by
    apply ceil_div_ge
    rw [show e - 5 + 5 = e by omega]
    exact he1
  have hq64 : (s + (2 ^ (e - 5) - 1)) / 2 ^ (e - 5) ≤ 2 ^ 6 := by
    apply ceil_div_le
    rw [show e - 5 + 6 = e + 1 by omega]
    exact he2
  norm_num at hq32 hq64
  have hle : s ≤ (s + (2 ^ (e - 5) - 1)) / 2 ^ (e - 5) * 2 ^ (e - 5) :=
    le_ceil_mul s (2 ^ (e - 5)) htpos
  rw [hup]
  set q := (s + (2 ^ (e - 5) - 1)) / 2 ^ (e - 5) with hq
  rcases Nat.lt_or_ge q 64 with hqlt | hqge
  · -- no spill: the rounded size stays in bin `e`
    have hr1 : 2 ^ e ≤ q * 2 ^ (e - 5) := by
      have hpow : (2 : Nat) ^ e = 2 ^ 5 * 2 ^ (e - 5) := by
        rw [← Nat.pow_add]
        congr 1
        omega
      rw [hpow]
      exact Nat.mul_le_mul_right _ (by omega)
    have hr2 : q * 2 ^ (e - 5) < 2 ^ (e + 1) := by
      have hpow : (2 : Nat) ^ (e + 1) = 2 ^ 6 * 2 ^ (e - 5) := by
        rw [← Nat.pow_add]
        congr 1
        omega
      rw [hpow]
      exact Nat.mul_lt_mul_of_lt_of_le (by omega) (le_refl _) htpos
    have hmr : bit_scan_msb (q * 2 ^ (e - 5) ||| 128) = e :=
      bit_scan_msb_lor_of_bounds _ e he7 (by omega) hr1 hr2
    have hdown := binmap_down_eq (q * 2 ^ (e - 5)) e hmr
    rw [hdown]
    have hdiv : q * 2 ^ (e - 5) / 2 ^ (e - 5) = q := Nat.mul_div_cancel _ htpos
    simp only [hdiv]
    exact ⟨hle, trivial, trivial, trivial⟩
  · -- spill: q = 64, the rounded size is 2^(e+1)
    have hq64' : q = 64 := by omega
    have hr : q * 2 ^ (e - 5) = 2 ^ (e + 1) := by
      rw [hq64', show e + 1 = (e - 5) + 6 by omega, Nat.pow_add]
      ring
    have hr1 : 2 ^ (e + 1) ≤ q * 2 ^ (e - 5) := by omega
    have hr2 : q * 2 ^ (e - 5) < 2 ^ (e + 1 + 1) := by
      have hpow : (2 : Nat) ^ (e + 1) < 2 ^ (e + 2) :=
        Nat.pow_lt_pow_right (by norm_num) (by omega)
      omega
    have hmr : bit_scan_msb (q * 2 ^ (e - 5) ||| 128) = e + 1 :=
      bit_scan_msb_lor_of_bounds _ (e + 1) (by omega) (by omega) hr1 hr2
    have hdown := binmap_down_eq (q * 2 ^ (e - 5)) (e + 1) hmr
    rw [hdown]
    have ht1 : e + 1 - 5 = (e - 5) + 1 := by omega
    have hdiv : q * 2 ^ (e - 5) / 2 ^ (e + 1 - 5) = 32 := by
      rw [ht1, hq64', Nat.pow_succ]
      rw [show (64 : Nat) * 2 ^ (e - 5) = 32 * (2 ^ (e - 5) * 2) by ring]
      exact Nat.mul_div_cancel _ (by positivity)
    rw [hq64'] at hle
    simp only [hdiv]
    simp only [hq64']
    refine ⟨hle, ?_, by norm_num, ?_⟩
    · norm_num
      omega
    · norm_num
      omega

open SpeedAllocator in
/-- Claim C4, witness at `s = 200`: the hypotheses hold and the round trip
lands class `(1, 18)` with rounded size 200. -/
theorem claim_C4_witness :
    MIN_ALLOC_SIZE ≤ 200 ∧ (200 : Nat) ≤ 2 ^ 62 ∧
    (200 ≤ (binmap_up 200).rounded_size ∧
     (binmap_down (binmap_up 200).rounded_size).bin_idx = (binmap_up 200).bin_idx ∧
     (binmap_down (binmap_up 200).rounded_size).sub_bin_idx = (binmap_up 200).sub_bin_idx ∧
     (binmap_down (binmap_up 200).rounded_size).idx = (binmap_up 200).idx) :=
  ⟨by decide, by decide, claim_C4_binmap_roundtrip 200 (by decide) (by decide)⟩

set_option maxRecDepth 10000 in
/-- Claim C5 (code bug): with 57 bins but a `u32` `bin_bitmap`, the mask
`!0 << (bin_idx + 1)` overflows for `bin_idx = 31` (request `37 * 2^32`,
class flat 997).  With release (wrapping-shift) semantics the mask hides
nothing, and the search returns the populated class flat 994 — *below* the
request — instead of failing with `OutOfFreeBlock` (no class at or above
997 is populated in `hugeClassState`; a debug build would panic on the
shift overflow instead). -/
theorem claim_C5_find_returns_class_below_request :
    (SpeedAllocator.binmap_up (37 * 2 ^ 32)).idx = 997 ∧
    hugeFindResult.map (fun m => (m.bin_idx, m.sub_bin_idx, m.idx)) =
      .ok (31, 2, 994) := by
  refine ⟨by decide, by decide⟩

set_option maxRecDepth 10000 in
/-- Claim C6 (code bug): after a split the source sets
`block.offset = aligned_offset` and then `mark_used(adjustment)` adds
`adjustment` *again*.  For the size-3968 block at offset 128 and request
(200, 256): `aligned_offset = 256`, `adjustment = 128`; the tail block is
correct (`T.size = 3640 = 3968 - 328`, `T.offset = 456 = 128 + 328`,
spliced after block 0) and B is marked used with `B.size = 200`, but
`B.offset` ends at 384 = 256 + 128, not at the claimed 256. -/
theorem claim_C6_offset_gets_double_adjustment :
    align_forward 128 256 = 256 ∧
    splitResult.map (fun r => r.1) = .ok (some 1) ∧
    splitResult.map
      (fun r => (r.2.blocks.getD 0 none).map (fun b => (b.offset, b.size, b.next_physical))) =
      .ok (some (384, 200, some 1)) ∧
    splitResult.map
      (fun r => (r.2.blocks.getD 0 none).map Block.is_free) = .ok (some false) ∧
    splitResult.map
      (fun r => (r.2.blocks.getD 1 none).map (fun b => (b.offset, b.size, b.prev_physical))) =
      .ok (some (456, 3640, some 0)) := by
  refine ⟨by decide, by decide, by decide, by decide, by decide⟩

set_option maxRecDepth 10000 in
/-- Claim C7 (code bug): deallocating the used block B (id 1) of
`chainState` leaves two adjacent free blocks.  B's physical predecessor A
(id 0) is free but not the head of its list, so `is_free(A)` is `false` and
the merge skips it; B merges only with C and is reinserted.  Afterwards A
(head of class 32) and B (head of class 64) are both free-list members and
physically adjacent (`A.next_physical = B`, `B.prev_physical = A`),
violating the coalescing invariant the claim asserts. -/
theorem claim_C7_adjacent_free_blocks_after_deallocate :
    deallocResult.map (fun s => (s.bins.getD 32 none, s.bins.getD 64 none)) =
      .ok (some 0, some 1) ∧
    deallocResult.map
      (fun s => (s.blocks.getD 0 none).map (fun b => (b.offset, b.size, b.next_physical))) =
      .ok (some (0, 128, some 1)) ∧
    deallocResult.map
      (fun s => (s.blocks.getD 0 none).map Block.is_free) = .ok (some true) ∧
    deallocResult.map
      (fun s => (s.blocks.getD 1 none).map (fun b => (b.offset, b.size, b.prev_physical))) =
      .ok (some (128, 256, some 0)) ∧
    deallocResult.map
      (fun s => (s.blocks.getD 1 none).map Block.is_free) = .ok (some true) := by
  refine ⟨by decide, by decide, by decide, by decide, by decide⟩

set_option maxRecDepth 10000 in
/-- Claim C8 (code bug): on `BlockInsufficient` the block is leaked.  In
`tightBlockState` the only free block (size 128 at offset 128) is admitted
for request (128, 256); `use_free_block` fails (`128 + 128 > 128`) after
the block was already removed, and `allocate` returns `None` without
reinserting: afterwards `num_free_block = 0`, every bin is empty, both
bitmap words are zero, yet the block record still exists — it is no longer
accounted for in any free structure or in `num_free_block`. -/
theorem claim_C8_insufficient_block_leaked :
    insufficientResult.map
      (fun r => (r.1, r.2.num_free_block, r.2.bin_bitmap,
        r.2.bins.all (fun o => o == none),
        (r.2.blocks.getD 0 none).isSome)) =
      .ok (none, 0, 0, true, true) := by
  decide

set_option maxRecDepth 10000 in
/-- Claim C9 (code bug): inserting a free block of size `2^38` (class bin
32, sub-bin 0) executes `bin_bitmap |= 1 << 32` on a `u32`.  With release
(wrapping-shift) semantics this sets bit 0 instead: afterwards
`sub_bin_bitmap[32] = 1 ≠ 0` while `bin_bitmap` bit 32 is clear, and
`bin_bitmap` bit 0 is set while `sub_bin_bitmap[0] = 0` — the claimed
bitmap-consistency invariant fails in both directions after a single
`insert_free_block` (a debug build would panic on the shift overflow). -/
theorem claim_C9_insert_bin32_corrupts_bitmap :
    hugeInsertResult.map
      (fun s => (s.bins.getD 1024 none, s.sub_bin_bitmap.getD 32 0,
        s.sub_bin_bitmap.getD 0 0, s.bin_bitmap,
        s.bin_bitmap.testBit 32, s.bin_bitmap.testBit 0)) =
      .ok (some 0, 1, 0, 1, false, true) := by
  decide

set_option maxRecDepth 10000 in
/-- Claim C10, counterexample: the adapter does *not* return the null
pointer for every layout.  For the valid layout (size `2^63 - 1`, align 1)
the fresh allocator's `binmap_up` yields bin index 57, and reading
`sub_bin_bitmap[57]` from the 57-entry table is out of bounds: the call
panics instead of returning null. -/
theorem claim_C10_panics_on_huge_layout :
    SpeedAllocator.adapter_alloc (2 ^ 63 - 1) 1 =
      .error (.panic "index out of bounds") := by
  decide

open SpeedAllocator in
/-- Claim C10 as amended: for every layout whose size is at most
`2^63 - 2^57` the per-call fresh allocator has no free block, so the
adapter returns the null pointer — it can never hand out memory.  (For
larger sizes the call panics on the bin-table index instead, per the
counterexample.) -/
theorem claim_C10_adapter_returns_null (size alignment : Nat)
    (h : size ≤ 2 ^ 63 - 2 ^ 57) :
    adapter_alloc size alignment = .ok none := by
  have hbin := binmap_up_bin_le size h
  have hlen : SpeedAllocator.new.sub_bin_bitmap.length = 57 := by
    simp [SpeedAllocator.new, BIN_COUNT, LINEAR]
  have hget : getU32 SpeedAllocator.new.sub_bin_bitmap (binmap_up size).bin_idx = .ok 0 := by
    unfold getU32
    rw [dif_pos (by omega : (binmap_up size).bin_idx < SpeedAllocator.new.sub_bin_bitmap.length)]
    congr 1
    simp [SpeedAllocator.new]
  have hfind : SpeedAllocator.new.find_free_block size = .error (.err "OutOfFreeBlock") := by
    simp only [find_free_block, hget]
    have hbb : SpeedAllocator.new.bin_bitmap = 0 := rfl
    simp [hbb, Nat.zero_and]
  by_cases hg : (!is_pow_two alignment && decide (size < MIN_ALLOC_SIZE)) = true
  · simp only [adapter_alloc, SpeedAllocator.allocate, if_pos hg]
  · simp only [adapter_alloc, SpeedAllocator.allocate, if_neg hg, hfind]

/-- Claim C10, witness for the amended theorem at the layout (4096, 8). -/
theorem claim_C10_witness :
    (4096 : Nat) ≤ 2 ^ 63 - 2 ^ 57 ∧
    SpeedAllocator.adapter_alloc 4096 8 = .ok none :=
  ⟨by decide, claim_C10_adapter_returns_null 4096 8 (by decide)⟩
